import Mathlib

/-!
Verification of the WMI sampling core of the dd-agent repository.

The check itself lives in src/checks.d/wmi_alternative_check.py and is
embedded directly.  The sampler library (checks/libs/wmi/sampler.py) is
not part of src; its definitions below are modelled from the design spec
(sections 4.1-4.3) and pinned by the unit tests in
src/tests/core/test_wmi.py, which exercise the query text, the connection
pool and the raw double-sampling protocol.
-/

namespace DDWmi

/-- Decidable equality for Except, so that witnesses can evaluate results. -/
instance {ε α} [DecidableEq ε] [DecidableEq α] : DecidableEq (Except ε α) := fun a b =>
  match a, b with
  | .ok x, .ok y =>
    if h : x = y then isTrue (by rw [h]) else isFalse (fun hc => h (Except.ok.inj hc))
  | .error x, .error y =>
    if h : x = y then isTrue (by rw [h]) else isFalse (fun hc => h (Except.error.inj hc))
  | .ok _, .error _ => isFalse (fun hc => Except.noConfusion hc)
  | .error _, .ok _ => isFalse (fun hc => Except.noConfusion hc)

/-- A Python runtime value held in a parsed WMI row: a float or a string.
Floats are embedded as rationals, which the arithmetic of the check
(subtraction and parsing of small decimal literals) lives inside exactly. -/
inductive Value where
  | num (q : Rat)
  | str (s : String)
deriving DecidableEq, Repr

/-- Python str.lower, per character.  Core Char.toLower has exactly the
semantics of Python str.lower on the ASCII data this check handles. -/
def py_lower_char (c : Char) : Char := Char.toLower c

/-- Python str.lower on a string. -/
def py_lower (s : String) : String := String.mk (s.data.map py_lower_char)

/-- Numeric value of a digit list, most significant first. -/
def natOfDigits (l : List Char) : Nat :=
  l.foldl (fun a c => a * 10 + (c.toNat - 48)) 0

/-- Parse an unsigned decimal literal: digits with an optional fractional
part, at least one digit overall.  none models a Python ValueError. -/
def parse_unsigned (l : List Char) : Option Rat :=
  let intPart := l.takeWhile Char.isDigit
  let rest := l.dropWhile Char.isDigit
  match rest with
  | [] => if intPart.isEmpty then none else some ((natOfDigits intPart : Nat) : Rat)
  | c :: frac =>
    if c = '.' ∧ frac.all Char.isDigit ∧ (¬ intPart.isEmpty ∨ ¬ frac.isEmpty) then
      some ((natOfDigits intPart : Rat) + (natOfDigits frac : Rat) / ((10 : Rat) ^ frac.length))
    else none

/-- Python float(string): optional sign, then an unsigned decimal literal.
none models a ValueError. -/
def py_float_str (s : String) : Option Rat :=
  match s.data with
  | [] => none
  | c :: rest =>
    if c = '-' then (parse_unsigned rest).map (fun q => -q)
    else if c = '+' then parse_unsigned rest
    else parse_unsigned (c :: rest)

/-- Python float(value): floats pass through, strings are parsed. -/
def py_float : Value → Option Rat
  | .num q => some q
  | .str s => py_float_str s

/-- Python value.lower(): defined on strings only; none models the
AttributeError a float value would raise. -/
def py_lower_value : Value → Option String
  | .num _ => none
  | .str s => some (py_lower s)

/-- A parsed WMI row: ordered mapping from lowercased property name to
value (spec section 3, Row). -/
abbrev Row := List (String × Value)

/-- The WMIMetric namedtuple of wmi_alternative_check.py line 8. -/
structure WMIMetric where
  name : String
  value : Rat
  tags : List String
deriving DecidableEq, Repr

/-- Ways _extract_metrics can raise: the MissingTagBy exception of line 87,
or the AttributeError of line 98 when .lower() is called on a float. -/
inductive ExtractError where
  | missingTagBy
  | attributeError
deriving DecidableEq, Repr

/-- The inner property loop of _extract_metrics
(wmi_alternative_check.py lines 92-107).  The accumulator carries the tag
list and the (name, value) candidates of the current row.  The Python code
appends each WMIMetric holding a reference to the one shared tags list of
the row, so every candidate of a row observes the final tag list of that
row; extract_rows therefore attaches the finished tag list below. -/
def extract_props (tagBy : String) (acc : List String × List (String × Rat)) :
    List (String × Value) → Except ExtractError (List String × List (String × Rat))
  | [] => .ok acc
  | p :: rest =>
    if p.1 = tagBy then
      match py_lower_value p.2 with
      | some v => extract_props tagBy (acc.1 ++ [py_lower tagBy ++ ":" ++ v], acc.2) rest
      | none => .error .attributeError
    else
      match py_float p.2 with
      | some q => extract_props tagBy (acc.1, acc.2 ++ [(p.1, q)]) rest
      | none => extract_props tagBy acc rest

/-- The outer row loop of _extract_metrics (lines 89-108). -/
def extract_rows (tagBy : String) (acc : List WMIMetric) :
    List Row → Except ExtractError (List WMIMetric)
  | [] => .ok acc
  | r :: rest =>
    match extract_props tagBy ([], []) r with
    | .error e => .error e
    | .ok (tags, cands) =>
      extract_rows tagBy (acc ++ cands.map (fun c => ⟨c.1, c.2, tags⟩)) rest

/-- WMIAlternativeCheck._extract_metrics (lines 86-108): raise MissingTagBy
on a multi-row result with empty tag_by, otherwise run the row loop. -/
def extract_metrics (rows : List Row) (tagBy : String) : Except ExtractError (List WMIMetric) :=
  if 1 < rows.length ∧ tagBy = "" then .error .missingTagBy
  else extract_rows tagBy [] rows

/-- Tag entries contributed by a row: one per property named tagBy whose
value is a string. -/
def row_tags (tagBy : String) (r : Row) : List String :=
  r.filterMap (fun p =>
    if p.1 = tagBy then (py_lower_value p.2).map (fun v => py_lower tagBy ++ ":" ++ v)
    else none)

/-- The (name, value) candidates of a row: the non-tag properties whose
values coerce to a float. -/
def row_values (tagBy : String) (r : Row) : List (String × Rat) :=
  r.filterMap (fun p =>
    if p.1 = tagBy then none
    else (py_float p.2).map (fun q => (p.1, q)))

/-- The metric candidates of a row, carrying the full tag list of the row. -/
def row_candidates (tagBy : String) (r : Row) : List WMIMetric :=
  (row_values tagBy r).map (fun c => ⟨c.1, c.2, row_tags tagBy r⟩)

/-- A row is clean for a tag selector when every property named tagBy has a
string value, so the .lower() call of the extractor cannot fail on it. -/
def row_clean (tagBy : String) (r : Row) : Prop :=
  ∀ p ∈ r, p.1 = tagBy → py_lower_value p.2 ≠ none

instance (tagBy : String) (r : Row) : Decidable (row_clean tagBy r) :=
  inferInstanceAs (Decidable (∀ p ∈ r, p.1 = tagBy → py_lower_value p.2 ≠ none))

/-- One call to a submission method of the check (spec section 6 sink). -/
structure Emission where
  method : String
  metric_name : String
  value : Rat
  tags : List String
deriving DecidableEq, Repr

/-- Ways _submit_metrics can raise: the KeyError of the dict lookup at
line 115, or the Exception thrown for an unknown metric type at line 119. -/
inductive SubmitError where
  | keyError (property : String)
  | invalidMetricType (t : String)
deriving DecidableEq, Repr

/-- Modelled from the spec: the metric sink methods of the external
AgentCheck base class (spec section 6); getattr(self, metric_type)
succeeds exactly on these names. -/
def agent_check_methods : List String := ["gauge", "histogram", "service_check"]

/-- WMIAlternativeCheck._submit_metrics (lines 110-121): for each metric,
look up (metric name, metric type) by property name in the declared table
(a KeyError escapes if absent), resolve the submission method by name
(an Exception escapes if unknown), and call it.  Returns the emissions
performed before any error, plus the error if one was raised. -/
def submit_metrics (table : List (String × String × String)) :
    List WMIMetric → List Emission × Option SubmitError
  | [] => ([], none)
  | m :: rest =>
    match table.lookup m.name with
    | none => ([], some (.keyError m.name))
    | some (mname, mtype) =>
      if mtype ∈ agent_check_methods then
        let r := submit_metrics table rest
        (⟨mtype, mname, m.value, m.tags⟩ :: r.1, r.2)
      else ([], some (.invalidMetricType mtype))

/-- The emission a single metric would produce, if its name is declared. -/
def emit_of (table : List (String × String × String)) (m : WMIMetric) : Option Emission :=
  (table.lookup m.name).map (fun nt => ⟨nt.2, nt.1, m.value, m.tags⟩)

/-- WMIAlternativeCheck._get_instance_key (lines 123-131). -/
def get_instance_key (host nmspace wmi_class : String) : String :=
  host ++ ":" ++ nmspace ++ ":" ++ wmi_class

/-- The constructor arguments a WMISampler is built from in check()
(lines 58-66). -/
structure SamplerSpec where
  wmi_class : String
  properties : List String
  filters : List (String × String)
  host : String
  nmspace : String
  username : String
  password : String
deriving DecidableEq, Repr

/-- WMIAlternativeCheck._get_wmi_sampler (lines 133-141): build and cache a
sampler under the instance key on a miss, return the cached one on a hit. -/
def get_wmi_sampler (cache : List (String × SamplerSpec)) (key : String) (spec : SamplerSpec) :
    List (String × SamplerSpec) × SamplerSpec :=
  match cache.lookup key with
  | some s => (cache, s)
  | none => (cache ++ [(key, spec)], spec)

/-- Substring test on character lists, used for the raw-class naming test. -/
def contains_sub (needle : List Char) : List Char → Bool
  | [] => needle.isEmpty
  | c :: t => needle.isPrefixOf (c :: t) || contains_sub needle t

/-- Modelled from the spec: the sampler library (checks/libs/wmi/sampler.py,
absent from src) flags a class as raw by its naming convention
(spec section 3; test_raw_perf_properties distinguishes
Win32_PerfRawData_PerfOS_System from Win32_PerfFormattedData_PerfOS_System). -/
def is_raw_perf_class (class_name : String) : Bool :=
  contains_sub "perfrawdata".data (py_lower class_name).data

/-- Modelled from the spec: the two implicit extra properties a raw class
carries, a timestamp and a frequency (spec sections 3 and 4.3; the raw
query of test_wmi.py line 103 names them). -/
def raw_extra_properties : List String := ["Timestamp_Sys100NS", "Frequency_Sys100NS"]

/-- Modelled from the spec: the WMISampler state (spec section 3). -/
structure WMISampler where
  class_name : String
  property_names : List String
  current_sample : List Row
  previous_sample : Option (List Row)
deriving DecidableEq, Repr

/-- Modelled from the spec: WMISampler construction silently extends the
property list of a raw class before freezing it (spec section 4.3;
test_raw_perf_properties expects 1 property to become 3). -/
def WMISampler.new (class_name : String) (properties : List String) : WMISampler :=
  { class_name := class_name
    property_names :=
      if is_raw_perf_class class_name then
        properties ++ raw_extra_properties.filter (fun p => ¬ p ∈ properties)
      else properties
    current_sample := []
    previous_sample := none }

/-- Whether this sampler is over a raw class, derived from the class name. -/
def WMISampler.is_raw (s : WMISampler) : Bool := is_raw_perf_class s.class_name

/-- A result row as the protocol layer returns it: (Name, Value) pairs of
strings, as in the mocked fixtures of test_wmi.py. -/
abbrev RawRow := List (String × String)

/-- Modelled from the spec: the protocol connection, embedded as the queue
of results the remote side will return plus the ExecQuery call counter of
the test harness (test_wmi.py SWbemServices). -/
structure WMIConnection where
  pending : List (List RawRow)
  exec_query_call_count : Nat
deriving DecidableEq, Repr

/-- One ExecQuery round trip: pop the next pending result (an exhausted
queue yields an empty result) and count the call. -/
def WMIConnection.execQuery (c : WMIConnection) : List RawRow × WMIConnection :=
  match c.pending with
  | [] => ([], { c with exec_query_call_count := c.exec_query_call_count + 1 })
  | r :: rest => (r, { pending := rest, exec_query_call_count := c.exec_query_call_count + 1 })

/-- Modelled from the spec: result parsing lowercases property names and
coerces numeric-looking values to floats (spec section 3 Row;
test_wmi_parser). -/
def parse_row (r : RawRow) : Row :=
  r.map (fun p => (py_lower p.1,
    match py_float_str p.2 with
    | some q => Value.num q
    | none => Value.str p.2))

/-- Parse every row of one query result. -/
def parse_results (rs : List RawRow) : List Row := rs.map parse_row

/-- Modelled from the spec: the raw delta step pairs one new row with its
previous counterpart and replaces each raw accumulator (numeric) value by
new minus old, leaving non-numeric properties untouched (spec section 4.3). -/
def delta_row (old : Row) (new : Row) : Row :=
  new.map (fun p =>
    match old.lookup p.1, p.2 with
    | some (Value.num o), Value.num n => (p.1, Value.num (n - o))
    | _, _ => p)

/-- Modelled from the spec: rows pair 1:1 in stable order across the two
successive query results (spec sections 4.3 and 9). -/
def delta_rows (old : List Row) (new : List Row) : List Row :=
  List.zipWith delta_row old new

/-- Modelled from the spec: WMISampler.sample (spec section 4.3), with the
query count pinned by test_raw_initial_sampling: a raw sampler with no
previous snapshot issues an initialization query and a sampling query
inside the same sample() call (the test asserts 2 ExecQuery calls after
the first sample and 3 after the second), computing its usable current
result as the delta of the two parsed results; a later raw sample issues
one query and takes the delta against the stored snapshot; a non-raw
sample issues one query whose parsed rows are immediately usable. -/
def WMISampler.sample (s : WMISampler) (conn : WMIConnection) : WMISampler × WMIConnection :=
  if s.is_raw then
    match s.previous_sample with
    | none =>
      let q0 := conn.execQuery
      let q1 := q0.2.execQuery
      let prev := parse_results q0.1
      let cur := parse_results q1.1
      ({ s with previous_sample := some cur, current_sample := delta_rows prev cur }, q1.2)
    | some prevRaw =>
      let q1 := conn.execQuery
      let cur := parse_results q1.1
      ({ s with previous_sample := some cur, current_sample := delta_rows prevRaw cur }, q1.2)
  else
    let q1 := conn.execQuery
    ({ s with current_sample := parse_results q1.1 }, q1.2)

/-- Modelled from the spec: the class-level connection cache, keyed by
host, namespace and user (test_wmi_connection checks the key
myhost:some/namespace:datadog), with the ConnectServer call counter of
the mocked Dispatch class. -/
structure WMIConnectionPool where
  keys : List String
  connect_call_count : Nat
deriving DecidableEq, Repr

/-- The connection identity key of a sampler (spec section 3). -/
def connection_key (host nmspace username : String) : String :=
  host ++ ":" ++ nmspace ++ ":" ++ username

/-- Modelled from the spec: get or establish a connection
(spec section 4.2): connect() runs only on a cache miss. -/
def get_connection (pool : WMIConnectionPool) (key : String) : WMIConnectionPool :=
  if key ∈ pool.keys then pool
  else { keys := pool.keys ++ [key], connect_call_count := pool.connect_call_count + 1 }

/-- Run a sequence of connection lookups against an initially empty pool. -/
def run_pool (keys : List String) : WMIConnectionPool :=
  keys.foldl get_connection { keys := [], connect_call_count := 0 }

/-- The single quote character of the WQL literal syntax. -/
def sq : String := String.singleton (Char.ofNat 39)

/-- Modelled from the spec: one filter rendered as a single-quoted equality
literal (spec section 4.1; test_wql_filtering). -/
def render_filter (f : String × String) : String :=
  f.1 ++ " = " ++ sq ++ f.2 ++ sq

/-- Lexicographic code-point comparison on character lists, the order
Python sorted() uses on strings. -/
def chars_le : List Char → List Char → Bool
  | [], _ => true
  | _ :: _, [] => false
  | x :: xs, y :: ys =>
    if x.toNat < y.toNat then true
    else if y.toNat < x.toNat then false
    else chars_le xs ys

/-- Lexicographic comparison of strings by code point. -/
def str_le (a b : String) : Bool := chars_le a.data b.data

/-- Ordering of filters by field name. -/
def filter_le (a b : String × String) : Prop := str_le a.1 b.1 = true

instance : DecidableRel filter_le := fun a b => inferInstanceAs (Decidable (str_le a.1 b.1 = true))

/-- Modelled from the spec: filters are sorted by field name before
rendering (spec section 4.1; test_wql_filtering feeds Name before Id and
expects Id rendered first). -/
def sort_filters (fs : List (String × String)) : List (String × String) :=
  List.insertionSort filter_le fs

/-- Modelled from the spec: WMISampler._format_filter
(test_wql_filtering): empty filters render as the empty string, otherwise
a WHERE clause of AND-joined sorted equality literals. -/
def format_filter (fs : List (String × String)) : String :=
  if fs.isEmpty then ""
  else " WHERE " ++ String.intercalate " AND " ((sort_filters fs).map render_filter)

/-- Modelled from the spec: the compiled WQL text (spec section 4.1;
test_wmi_query). -/
def wmi_query (wmi_class : String) (props : List String) (fs : List (String × String)) : String :=
  "Select " ++ String.intercalate "," props ++ " from " ++ wmi_class ++ format_filter fs

/-! Helper lemmas about the embedded functions. -/

theorem py_lower_char_idem (c : Char) : py_lower_char (py_lower_char c) = py_lower_char c := by
  unfold py_lower_char Char.toLower
  by_cases h : c.toNat ≥ 65 ∧ c.toNat ≤ 90
  · rw [if_pos h]
    have hv : Nat.isValidChar (c.toNat + 32) := Or.inl (by omega)
    have ht : (Char.ofNat (c.toNat + 32)).toNat = c.toNat + 32 := by
      rw [Char.ofNat, dif_pos hv]; rfl
    rw [if_neg (by rw [ht]; omega)]
  · rw [if_neg h, if_neg h]

theorem py_lower_idem (s : String) : py_lower (py_lower s) = py_lower s := by
  unfold py_lower
  apply congrArg String.mk
  show (s.data.map py_lower_char).map py_lower_char = s.data.map py_lower_char
  rw [List.map_map]
  exact List.map_congr_left (fun a _ => py_lower_char_idem a)

theorem chars_le_total : ∀ xs ys, chars_le xs ys = true ∨ chars_le ys xs = true := by
  intro xs
  induction xs with
  | nil => intro ys; left; rfl
  | cons x xs ih =>
    intro ys
    cases ys with
    | nil => right; rfl
    | cons y ys =>
      by_cases h1 : x.toNat < y.toNat
      · left; simp [chars_le, h1]
      · by_cases h2 : y.toNat < x.toNat
        · right; simp [chars_le, h2]
        · rcases ih ys with h | h
          · left; simp [chars_le, h1, h2, h]
          · right; simp [chars_le, h1, h2, h]

theorem chars_le_head {x y : Char} {xs ys : List Char}
    (h : chars_le (x :: xs) (y :: ys) = true) : x.toNat ≤ y.toNat := by
  by_contra hc
  have h1 : ¬ x.toNat < y.toNat := by omega
  have h2 : y.toNat < x.toNat := by omega
  simp [chars_le, h1, h2] at h

theorem chars_le_trans : ∀ xs ys zs, chars_le xs ys = true → chars_le ys zs = true →
    chars_le xs zs = true := by
  intro xs
  induction xs with
  | nil => intro ys zs _ _; rfl
  | cons x xs ih =>
    intro ys zs h1 h2
    cases ys with
    | nil => simp [chars_le] at h1
    | cons y ys =>
      cases zs with
      | nil => simp [chars_le] at h2
      | cons z zs =>
        have hxy := chars_le_head h1
        have hyz := chars_le_head h2
        rcases Nat.lt_trichotomy x.toNat z.toNat with h | h | h
        · simp [chars_le, h]
        · have hxyeq : ¬ x.toNat < y.toNat := by omega
          have hyxeq : ¬ y.toNat < x.toNat := by omega
          have hyzeq : ¬ y.toNat < z.toNat := by omega
          have hzyeq : ¬ z.toNat < y.toNat := by omega
          simp only [chars_le, if_neg hxyeq, if_neg hyxeq] at h1
          simp only [chars_le, if_neg hyzeq, if_neg hzyeq] at h2
          have hxzeq : ¬ x.toNat < z.toNat := by omega
          have hzxeq : ¬ z.toNat < x.toNat := by omega
          simp only [chars_le, if_neg hxzeq, if_neg hzxeq]
          exact ih ys zs h1 h2
        · omega

instance : IsTotal (String × String) filter_le :=
  ⟨fun a b => chars_le_total a.1.data b.1.data⟩

instance : IsTrans (String × String) filter_le :=
  ⟨fun a b c h1 h2 => chars_le_trans a.1.data b.1.data c.1.data h1 h2⟩

theorem execQuery_count (c : WMIConnection) :
    (c.execQuery).2.exec_query_call_count = c.exec_query_call_count + 1 := by
  obtain ⟨p, n⟩ := c
  cases p <;> rfl

theorem lookup_append_of_none {α β : Type} [BEq α] :
    ∀ (l1 l2 : List (α × β)) (k : α), l1.lookup k = none →
      (l1 ++ l2).lookup k = l2.lookup k := by
  intro l1
  induction l1 with
  | nil => intro l2 k _; rfl
  | cons p l1 ih =>
    intro l2 k h
    rw [List.cons_append]
    cases hk : k == p.1
    · simp only [List.lookup, hk] at h ⊢
      exact ih l2 k h
    · simp only [List.lookup, hk] at h
      exact Option.noConfusion h

theorem extract_props_eq (tagBy : String) :
    ∀ (r : List (String × Value)) (ts : List String) (cs : List (String × Rat)),
    row_clean tagBy r →
    extract_props tagBy (ts, cs) r = .ok (ts ++ row_tags tagBy r, cs ++ row_values tagBy r) := by
  intro r
  induction r with
  | nil => intro ts cs _; simp [extract_props, row_tags, row_values]
  | cons p rest ih =>
    intro ts cs h
    have hrest : row_clean tagBy rest := fun q hq hq1 => h q (List.mem_cons_of_mem _ hq) hq1
    by_cases hp : p.1 = tagBy
    · cases hval : py_lower_value p.2 with
      | none => exact absurd hval (h p (List.mem_cons_self _ _) hp)
      | some v =>
        simp only [extract_props, if_pos hp, hval]
        rw [ih _ _ hrest]
        simp [row_tags, row_values, hp, hval]
    · cases hfl : py_float p.2 with
      | none =>
        simp only [extract_props, if_neg hp, hfl]
        rw [ih _ _ hrest]
        simp [row_tags, row_values, hp, hfl]
      | some q =>
        simp only [extract_props, if_neg hp, hfl]
        rw [ih _ _ hrest]
        simp [row_tags, row_values, hp, hfl]

theorem extract_props_ok_clean (tagBy : String) :
    ∀ (r : List (String × Value)) (ts : List String) (cs : List (String × Rat))
      (out : List String × List (String × Rat)),
    extract_props tagBy (ts, cs) r = .ok out → row_clean tagBy r := by
  intro r
  induction r with
  | nil => intro ts cs out _ q hq; exact absurd hq (List.not_mem_nil q)
  | cons p rest ih =>
    intro ts cs out h q hq hq1
    by_cases hp : p.1 = tagBy
    · cases hval : py_lower_value p.2 with
      | none =>
        simp only [extract_props, if_pos hp, hval] at h
        exact Except.noConfusion h
      | some v =>
        simp only [extract_props, if_pos hp, hval] at h
        rcases List.mem_cons.mp hq with rfl | hq2
        · simp [hval]
        · exact ih _ _ _ h q hq2 hq1
    · rcases List.mem_cons.mp hq with rfl | hq2
      · exact absurd hq1 hp
      · cases hfl : py_float p.2 with
        | none =>
          simp only [extract_props, if_neg hp, hfl] at h
          exact ih _ _ _ h q hq2 hq1
        | some qq =>
          simp only [extract_props, if_neg hp, hfl] at h
          exact ih _ _ _ h q hq2 hq1

theorem extract_props_ne_missing (tagBy : String) :
    ∀ (r : List (String × Value)) (ts : List String) (cs : List (String × Rat)),
    extract_props tagBy (ts, cs) r ≠ .error .missingTagBy := by
  intro r
  induction r with
  | nil => intro ts cs h; exact Except.noConfusion h
  | cons p rest ih =>
    intro ts cs h
    by_cases hp : p.1 = tagBy
    · cases hval : py_lower_value p.2 with
      | none =>
        simp only [extract_props, if_pos hp, hval] at h
        exact ExtractError.noConfusion (Except.error.inj h)
      | some v =>
        simp only [extract_props, if_pos hp, hval] at h
        exact ih _ _ h
    · cases hfl : py_float p.2 with
      | none =>
        simp only [extract_props, if_neg hp, hfl] at h
        exact ih _ _ h
      | some q =>
        simp only [extract_props, if_neg hp, hfl] at h
        exact ih _ _ h

theorem extract_rows_eq (tagBy : String) :
    ∀ (rows : List Row) (acc : List WMIMetric),
    (∀ r ∈ rows, row_clean tagBy r) →
    extract_rows tagBy acc rows = .ok (acc ++ rows.flatMap (row_candidates tagBy)) := by
  intro rows
  induction rows with
  | nil => intro acc _; simp [extract_rows]
  | cons r rest ih =>
    intro acc h
    have h1 := extract_props_eq tagBy r [] [] (h r (List.mem_cons_self _ _))
    simp only [List.nil_append] at h1
    simp only [extract_rows, h1]
    rw [ih _ (fun x hx => h x (List.mem_cons_of_mem _ hx))]
    simp [row_candidates, List.flatMap_cons]

theorem extract_rows_ok_clean (tagBy : String) :
    ∀ (rows : List Row) (acc out : List WMIMetric),
    extract_rows tagBy acc rows = .ok out → ∀ r ∈ rows, row_clean tagBy r := by
  intro rows
  induction rows with
  | nil => intro acc out _ r hr; exact absurd hr (List.not_mem_nil r)
  | cons r0 rest ih =>
    intro acc out h r hr
    cases hp : extract_props tagBy ([], []) r0 with
    | error e =>
      simp only [extract_rows, hp] at h
      exact Except.noConfusion h
    | ok tc =>
      simp only [extract_rows, hp] at h
      rcases List.mem_cons.mp hr with rfl | hr2
      · exact extract_props_ok_clean tagBy r [] [] tc hp
      · exact ih _ _ h r hr2

theorem extract_rows_ne_missing (tagBy : String) :
    ∀ (rows : List Row) (acc : List WMIMetric),
    extract_rows tagBy acc rows ≠ .error .missingTagBy := by
  intro rows
  induction rows with
  | nil => intro acc h; exact Except.noConfusion h
  | cons r rest ih =>
    intro acc h
    cases hp : extract_props tagBy ([], []) r with
    | error e =>
      simp only [extract_rows, hp] at h
      have he : e = .missingTagBy := Except.error.inj h
      exact extract_props_ne_missing tagBy r [] [] (he ▸ hp)
    | ok tc =>
      simp only [extract_rows, hp] at h
      exact ih _ h

theorem extract_metrics_missing_iff (rows : List Row) (tagBy : String) :
    extract_metrics rows tagBy = .error .missingTagBy ↔ (1 < rows.length ∧ tagBy = "") := by
  unfold extract_metrics
  by_cases h : 1 < rows.length ∧ tagBy = ""
  · rw [if_pos h]; exact ⟨fun _ => h, fun _ => rfl⟩
  · rw [if_neg h]
    exact ⟨fun hc => absurd hc (extract_rows_ne_missing tagBy rows []), fun hc => absurd hc h⟩

theorem extract_metrics_ok_eq (rows : List Row) (tagBy : String) (ms : List WMIMetric)
    (h : extract_metrics rows tagBy = .ok ms) :
    ms = rows.flatMap (row_candidates tagBy) := by
  unfold extract_metrics at h
  by_cases hg : 1 < rows.length ∧ tagBy = ""
  · rw [if_pos hg] at h; exact Except.noConfusion h
  · rw [if_neg hg] at h
    have hclean := extract_rows_ok_clean tagBy rows [] ms h
    rw [extract_rows_eq tagBy rows [] hclean] at h
    have := Except.ok.inj h
    simpa using this.symm

theorem extract_metrics_ok_clean (rows : List Row) (tagBy : String) (ms : List WMIMetric)
    (h : extract_metrics rows tagBy = .ok ms) : ∀ r ∈ rows, row_clean tagBy r := by
  unfold extract_metrics at h
  by_cases hg : 1 < rows.length ∧ tagBy = ""
  · rw [if_pos hg] at h; exact Except.noConfusion h
  · rw [if_neg hg] at h
    exact extract_rows_ok_clean tagBy rows [] ms h

theorem extract_metrics_ok_of (rows : List Row) (tagBy : String)
    (hg : ¬ (1 < rows.length ∧ tagBy = "")) (hc : ∀ r ∈ rows, row_clean tagBy r) :
    extract_metrics rows tagBy = .ok (rows.flatMap (row_candidates tagBy)) := by
  unfold extract_metrics
  rw [if_neg hg]
  simpa using extract_rows_eq tagBy rows [] hc

theorem submit_metrics_append (table : List (String × String × String)) :
    ∀ (pre rest : List WMIMetric),
    (∀ x ∈ pre, ∃ nt, table.lookup x.name = some nt ∧ nt.2 ∈ agent_check_methods) →
    submit_metrics table (pre ++ rest) =
      (pre.filterMap (emit_of table) ++ (submit_metrics table rest).1,
       (submit_metrics table rest).2) := by
  intro pre
  induction pre with
  | nil => intro rest _; simp
  | cons x pre ih =>
    intro rest h
    obtain ⟨nt, hl, hm⟩ := h x (List.mem_cons_self _ _)
    obtain ⟨mname, mtype⟩ := nt
    simp only [List.cons_append, submit_metrics, hl, if_pos hm, List.append_eq]
    rw [ih rest (fun y hy => h y (List.mem_cons_of_mem _ hy))]
    simp [emit_of, hl]

theorem pool_run_invariant : ∀ (ids : List String) (pool : WMIConnectionPool),
    pool.keys.Nodup → pool.connect_call_count = pool.keys.length →
    ((ids.foldl get_connection pool).keys.Nodup ∧
     (ids.foldl get_connection pool).connect_call_count =
       (ids.foldl get_connection pool).keys.length ∧
     ∀ k, k ∈ (ids.foldl get_connection pool).keys ↔ k ∈ pool.keys ∨ k ∈ ids) := by
  intro ids
  induction ids with
  | nil => intro pool h1 h2; exact ⟨h1, h2, fun k => by simp⟩
  | cons i rest ih =>
    intro pool h1 h2
    have hstep : (get_connection pool i).keys.Nodup ∧
        (get_connection pool i).connect_call_count = (get_connection pool i).keys.length ∧
        ∀ k, k ∈ (get_connection pool i).keys ↔ k ∈ pool.keys ∨ k = i := by
      unfold get_connection
      by_cases h : i ∈ pool.keys
      · rw [if_pos h]
        refine ⟨h1, h2, fun k => ⟨fun hk => Or.inl hk, fun hk => ?_⟩⟩
        rcases hk with hk | rfl
        · exact hk
        · exact h
      · rw [if_neg h]
        refine ⟨?_, ?_, fun k => ?_⟩
        · simp [List.nodup_append, h1, h]
        · simp [h2]
        · simp
    obtain ⟨s1, s2, s3⟩ := hstep
    rw [List.foldl_cons]
    obtain ⟨n1, n2, n3⟩ := ih (get_connection pool i) s1 s2
    refine ⟨n1, n2, fun k => ?_⟩
    rw [n3 k, s3 k, List.mem_cons]
    tauto

/-! Claim theorems. -/

/-- C1 (counterexample): contrary to the claim that the first sample() call
of a raw-class Sampler issues one query and leaves no usable current result,
the first sample() call issues two queries (the ExecQuery counter reaches 2,
as test_raw_initial_sampling asserts) and extraction from the sampler right
after the first sample() already yields a metric, with the accumulator
values 100 then 150 of the two queries giving a delta of 50. -/
theorem C1_counterexample :
    (((WMISampler.new "Win32_PerfRawData_PerfOS_System" ["ProcessorQueueLength"]).sample
        ⟨[[[("ProcessorQueueLength", "100")]], [[("ProcessorQueueLength", "150")]]], 0⟩).2.exec_query_call_count
      = 2) ∧
    extract_metrics
        (((WMISampler.new "Win32_PerfRawData_PerfOS_System" ["ProcessorQueueLength"]).sample
          ⟨[[[("ProcessorQueueLength", "100")]], [[("ProcessorQueueLength", "150")]]], 0⟩).1.current_sample) ""
      = .ok [⟨"processorqueuelength", (150 : Rat) - 100, []⟩] ∧
    ((150 : Rat) - 100) = 50 :=
  ⟨by decide, by rfl, by norm_num⟩

/-- C1 (amended): a Sampler over a raw class whose previous snapshot is
still empty issues two queries inside its first sample() call, stores the
parsed rows of the second query as the previous raw snapshot, and already
holds a usable current result equal to the delta of the two parsed results;
every later sample() issues exactly one more query and takes the delta
against the stored snapshot. -/
theorem C1_raw_sampling : ∀ (s : WMISampler) (conn : WMIConnection),
    s.is_raw = true →
    (s.previous_sample = none →
      (s.sample conn).2.exec_query_call_count = conn.exec_query_call_count + 2 ∧
      (s.sample conn).1.current_sample =
        delta_rows (parse_results conn.execQuery.1) (parse_results conn.execQuery.2.execQuery.1) ∧
      (s.sample conn).1.previous_sample = some (parse_results conn.execQuery.2.execQuery.1)) ∧
    (∀ prev, s.previous_sample = some prev →
      (s.sample conn).2.exec_query_call_count = conn.exec_query_call_count + 1 ∧
      (s.sample conn).1.current_sample = delta_rows prev (parse_results conn.execQuery.1) ∧
      (s.sample conn).1.previous_sample = some (parse_results conn.execQuery.1)) := by
  intro s conn hraw
  constructor
  · intro hprev
    have hs : s.sample conn =
        ({ s with previous_sample := some (parse_results conn.execQuery.2.execQuery.1),
                  current_sample := delta_rows (parse_results conn.execQuery.1)
                    (parse_results conn.execQuery.2.execQuery.1) },
         conn.execQuery.2.execQuery.2) := by
      simp only [WMISampler.sample, hraw, hprev, if_true]
    rw [hs]
    refine ⟨?_, rfl, rfl⟩
    show (conn.execQuery.2.execQuery).2.exec_query_call_count = _
    rw [execQuery_count, execQuery_count]
  · intro prev hprev
    have hs : s.sample conn =
        ({ s with previous_sample := some (parse_results conn.execQuery.1),
                  current_sample := delta_rows prev (parse_results conn.execQuery.1) },
         conn.execQuery.2) := by
      simp only [WMISampler.sample, hraw, hprev, if_true]
    rw [hs]
    exact ⟨execQuery_count _, rfl, rfl⟩

/-- C1 (witness): the amended theorem applied to the concrete raw sampler
and result stream of the counterexample, evaluated. -/
theorem C1_witness :
    (((WMISampler.new "Win32_PerfRawData_PerfOS_System" ["ProcessorQueueLength"]).sample
        ⟨[[[("ProcessorQueueLength", "100")]], [[("ProcessorQueueLength", "150")]]], 0⟩).2.exec_query_call_count
      = 2) :=
  (((C1_raw_sampling (WMISampler.new "Win32_PerfRawData_PerfOS_System" ["ProcessorQueueLength"])
      ⟨[[[("ProcessorQueueLength", "100")]], [[("ProcessorQueueLength", "150")]]], 0⟩
      (by decide)).1 rfl).1).trans (by decide)

/-- C2 (counterexample): contrary to the claim that a candidate with an
undeclared property name is discarded silently with no error, submitting a
candidate whose name is not a key of the metric table raises a KeyError and
emits nothing. -/
theorem C2_counterexample :
    submit_metrics [] [⟨"x", 1, []⟩] = ([], some (SubmitError.keyError "x")) := by
  decide

/-- C2 (amended): in the submission path there is no silent discard: a
candidate whose property name is not a key of the declared metric table
makes _submit_metrics raise a KeyError; candidates before it in the list
(with declared names and recognized types) have already been submitted when
the error propagates, and nothing from the offending candidate onward is
submitted. -/
theorem C2_keyerror : ∀ (table : List (String × String × String))
    (pre : List WMIMetric) (m : WMIMetric) (post : List WMIMetric),
    (∀ x ∈ pre, ∃ nt, table.lookup x.name = some nt ∧ nt.2 ∈ agent_check_methods) →
    table.lookup m.name = none →
    submit_metrics table (pre ++ m :: post) =
      (pre.filterMap (emit_of table), some (SubmitError.keyError m.name)) := by
  intro table pre m post h hm
  rw [submit_metrics_append table pre (m :: post) h]
  simp [submit_metrics, hm]

/-- C2 (witness): a declared candidate followed by an undeclared one: the
first is submitted, the undeclared one raises KeyError, the rest is not
submitted. -/
theorem C2_witness :
    submit_metrics [("a", "m.a", "gauge")] [⟨"a", 2, []⟩, ⟨"b", 3, []⟩, ⟨"a", 4, []⟩]
      = ([⟨"gauge", "m.a", 2, []⟩], some (SubmitError.keyError "b")) := by
  have hpre : ∀ x ∈ ([⟨"a", 2, []⟩] : List WMIMetric),
      ∃ nt, (([("a", "m.a", "gauge")] : List (String × String × String)).lookup x.name) = some nt ∧
        nt.2 ∈ agent_check_methods := by
    intro x hx
    rw [List.mem_singleton] at hx
    subst hx
    exact ⟨("m.a", "gauge"), by decide, by decide⟩
  have h := C2_keyerror [("a", "m.a", "gauge")] [⟨"a", 2, []⟩] ⟨"b", 3, []⟩ [⟨"a", 4, []⟩]
    hpre (by decide)
  exact h.trans (by decide)

/-- C3 (counterexample): contrary to the claim that check instances
differing in their filter set are served by distinct Samplers, two
configurations sharing host, namespace and class but differing in filters
produce the same instance key, and the second is served the Sampler built
from the first configuration. -/
theorem C3_counterexample :
    (get_wmi_sampler
        (get_wmi_sampler [] (get_instance_key "localhost" "ns" "C")
          ⟨"C", ["A"], [("Name", "C:")], "localhost", "ns", "", ""⟩).1
        (get_instance_key "localhost" "ns" "C")
        ⟨"C", ["A"], [], "localhost", "ns", "", ""⟩).2
      = ⟨"C", ["A"], [("Name", "C:")], "localhost", "ns", "", ""⟩ ∧
    (⟨"C", ["A"], [("Name", "C:")], "localhost", "ns", "", ""⟩ : SamplerSpec) ≠
      ⟨"C", ["A"], [], "localhost", "ns", "", ""⟩ := by
  decide

/-- C3 (amended): the check keeps one Sampler per instance key, and the key
is built from host, namespace and class only: a cache miss stores the
Sampler built from the given configuration, a cache hit returns the stored
Sampler unchanged, so a later check instance with the same key (even with
different properties, credentials or filters) reuses the first Sampler. -/
theorem C3_cache : ∀ (cache : List (String × SamplerSpec)) (key : String)
    (spec spec2 : SamplerSpec),
    (cache.lookup key = none →
      get_wmi_sampler cache key spec = (cache ++ [(key, spec)], spec) ∧
      (get_wmi_sampler (get_wmi_sampler cache key spec).1 key spec2).2 = spec) ∧
    (∀ s0, cache.lookup key = some s0 → get_wmi_sampler cache key spec = (cache, s0)) := by
  intro cache key spec spec2
  constructor
  · intro h
    have h1 : get_wmi_sampler cache key spec = (cache ++ [(key, spec)], spec) := by
      unfold get_wmi_sampler
      rw [h]
    refine ⟨h1, ?_⟩
    rw [h1]
    unfold get_wmi_sampler
    rw [lookup_append_of_none cache [(key, spec)] key h]
    simp [List.lookup]
  · intro s0 h
    unfold get_wmi_sampler
    rw [h]

/-- C3 (witness): the amended theorem at the concrete colliding
configurations of the counterexample. -/
theorem C3_witness :
    (get_wmi_sampler
        (get_wmi_sampler [] (get_instance_key "localhost" "ns" "C")
          ⟨"C", ["A"], [("Name", "C:")], "localhost", "ns", "", ""⟩).1
        (get_instance_key "localhost" "ns" "C")
        ⟨"C", ["A"], [], "localhost", "ns", "", ""⟩).2
      = ⟨"C", ["A"], [("Name", "C:")], "localhost", "ns", "", ""⟩ :=
  ((C3_cache [] (get_instance_key "localhost" "ns" "C")
      ⟨"C", ["A"], [("Name", "C:")], "localhost", "ns", "", ""⟩
      ⟨"C", ["A"], [], "localhost", "ns", "", ""⟩).1 (by decide)).2

/-- C4: _extract_metrics raises MissingTagBy exactly when the sampler holds
more than one row and tag_by is empty; in particular a one-row result with
empty tag_by is extracted without error. -/
theorem C4_missing_tag_by :
    (∀ (rows : List Row) (tagBy : String),
      extract_metrics rows tagBy = .error .missingTagBy ↔ (1 < rows.length ∧ tagBy = "")) ∧
    extract_metrics [[("freemegabytes", Value.num 19742)]] ""
      = .ok [⟨"freemegabytes", 19742, []⟩] :=
  ⟨fun rows tagBy => extract_metrics_missing_iff rows tagBy, by decide⟩

/-- C5: over rows whose property names are lowercased (as the sampler
produces them) and with the tag selector lowercased (as check() passes it),
a property matching tag_by case-insensitively never becomes a metric
candidate and instead contributes the tag built from the lowercased
selector and lowercased value to its row, and every candidate of a row
carries the full tag list of that row; the output is exactly the tagged
coercible non-tag candidates of every row. -/
theorem C5_tagging : ∀ (rows : List Row) (t : String) (ms : List WMIMetric),
    (∀ r ∈ rows, ∀ p ∈ r, py_lower p.1 = p.1) →
    extract_metrics rows (py_lower t) = .ok ms →
    (∀ m ∈ ms, py_lower m.name ≠ py_lower t) ∧
    (∀ r ∈ rows,
      (∀ m ∈ row_candidates (py_lower t) r, m.tags = row_tags (py_lower t) r) ∧
      (∀ p ∈ r, py_lower p.1 = py_lower t →
        ∃ v, py_lower_value p.2 = some v ∧ (py_lower t ++ ":" ++ v) ∈ row_tags (py_lower t) r)) ∧
    ms = rows.flatMap (row_candidates (py_lower t)) := by
  intro rows t ms hkeys hok
  have hms := extract_metrics_ok_eq rows (py_lower t) ms hok
  refine ⟨?_, ?_, hms⟩
  · intro m hm
    rw [hms] at hm
    rw [List.mem_flatMap] at hm
    obtain ⟨r, hr, hmr⟩ := hm
    obtain ⟨c, hc, rfl⟩ := List.mem_map.mp hmr
    obtain ⟨p, hp, hpc⟩ := List.mem_filterMap.mp hc
    by_cases hp1 : p.1 = py_lower t
    · simp [row_values, hp1] at hpc
    · rw [if_neg hp1] at hpc
      obtain ⟨q, _, rfl⟩ := Option.map_eq_some'.mp hpc
      show py_lower p.1 ≠ py_lower t
      rw [hkeys r hr p hp]
      exact hp1
  · intro r hr
    constructor
    · intro m hm
      obtain ⟨c, _, rfl⟩ := List.mem_map.mp hm
      rfl
    · intro p hp hieq
      have hp1 : p.1 = py_lower t := (hkeys r hr p hp).symm.trans hieq
      have hclean := extract_metrics_ok_clean rows (py_lower t) ms hok r hr
      cases hv : py_lower_value p.2 with
      | none => exact absurd hv (hclean p hp hp1)
      | some v =>
        refine ⟨v, rfl, ?_⟩
        have hmem : (py_lower (py_lower t) ++ ":" ++ v) ∈ row_tags (py_lower t) r :=
          List.mem_filterMap.mpr ⟨p, hp, by simp [hp1, hv]⟩
        rw [py_lower_idem t] at hmem
        exact hmem

/-- C5 (witness): the two-row fixture of the mocked tests, sharing property
Name with values C: and D:, extracted with tag selector Name: no candidate
is named name and the candidates carry tags name:c: and name:d:. -/
theorem C5_witness :
    extract_metrics (parse_results
        [[("FreeMegabytes", "19742"), ("AvgDiskBytesPerWrite", "1536"), ("Name", "C:")],
         [("FreeMegabytes", "19742"), ("AvgDiskBytesPerWrite", "1536"), ("Name", "D:")]])
        (py_lower "Name")
      = .ok [⟨"freemegabytes", 19742, ["name:c:"]⟩, ⟨"avgdiskbytesperwrite", 1536, ["name:c:"]⟩,
             ⟨"freemegabytes", 19742, ["name:d:"]⟩, ⟨"avgdiskbytesperwrite", 1536, ["name:d:"]⟩] ∧
    ([⟨"freemegabytes", 19742, ["name:c:"]⟩, ⟨"avgdiskbytesperwrite", 1536, ["name:c:"]⟩,
      ⟨"freemegabytes", 19742, ["name:d:"]⟩, ⟨"avgdiskbytesperwrite", 1536, ["name:d:"]⟩]
        : List WMIMetric)
      = (parse_results
        [[("FreeMegabytes", "19742"), ("AvgDiskBytesPerWrite", "1536"), ("Name", "C:")],
         [("FreeMegabytes", "19742"), ("AvgDiskBytesPerWrite", "1536"), ("Name", "D:")]]).flatMap
        (row_candidates (py_lower "Name")) :=
  ⟨by decide,
   (C5_tagging (parse_results
        [[("FreeMegabytes", "19742"), ("AvgDiskBytesPerWrite", "1536"), ("Name", "C:")],
         [("FreeMegabytes", "19742"), ("AvgDiskBytesPerWrite", "1536"), ("Name", "D:")]])
      "Name"
      [⟨"freemegabytes", 19742, ["name:c:"]⟩, ⟨"avgdiskbytesperwrite", 1536, ["name:c:"]⟩,
       ⟨"freemegabytes", 19742, ["name:d:"]⟩, ⟨"avgdiskbytesperwrite", 1536, ["name:d:"]⟩]
      (by decide) (by decide)).2.2⟩

/-- C6: the compiled query is Select p1,p2,... from class with the
properties joined by a bare comma in the given order; an empty filter list
emits no WHERE clause, a non-empty one appends a WHERE clause of
AND-joined field = value literals with the filters sorted by field name
(the sorted list is ordered and is a permutation of the input, so the
output does not depend on input order). -/
theorem C6_wql : ∀ (c : String) (ps : List String) (fs : List (String × String)),
    ps ≠ [] →
    (wmi_query c ps fs = "Select " ++ String.intercalate "," ps ++ " from " ++ c ++ format_filter fs) ∧
    (fs = [] → format_filter fs = "") ∧
    (fs ≠ [] → format_filter fs =
      " WHERE " ++ String.intercalate " AND " ((sort_filters fs).map render_filter)) ∧
    List.Sorted filter_le (sort_filters fs) ∧
    (sort_filters fs).Perm fs := by
  intro c ps fs _
  refine ⟨rfl, ?_, ?_, ?_, ?_⟩
  · intro h; subst h; rfl
  · intro h
    cases fs with
    | nil => exact absurd rfl h
    | cons f fs2 => rfl
  · exact List.sorted_insertionSort filter_le fs
  · exact List.perm_insertionSort filter_le fs

/-- C6 (witness): the query-builder test vectors: an unfiltered query joins
properties in order with a bare comma, and the two filters Name and Id are
rendered sorted with Id first regardless of the order they were given in. -/
theorem C6_witness :
    wmi_query "C" ["B", "A"] [] = "Select B,A from C" ∧
    wmi_query "C" ["A"] [("Name", "x"), ("Id", "1")]
      = "Select A from C WHERE Id = " ++ sq ++ "1" ++ sq ++ " AND Name = " ++ sq ++ "x" ++ sq := by
  have h1 := (C6_wql "C" ["B", "A"] [] (by decide)).1
  have h2 := (C6_wql "C" ["A"] [("Name", "x"), ("Id", "1")] (by decide)).1
  exact ⟨h1.trans (by decide), h2.trans (by decide)⟩

/-- C7: running any sequence of connection lookups against an empty session
pool performs exactly one connect() per distinct connection identity: the
connect counter equals the number of distinct keys; in particular two
samplers with the same (host, namespace, user) identity cause one
connect() call and two samplers differing in namespace cause two. -/
theorem C7_session_pool :
    (∀ ids : List String, (run_pool ids).connect_call_count = ids.dedup.length) ∧
    (run_pool [connection_key "localhost" "root/cimv2" "",
               connection_key "localhost" "root/cimv2" ""]).connect_call_count = 1 ∧
    (run_pool [connection_key "myhost" "ns1" "u",
               connection_key "myhost" "ns2" "u"]).connect_call_count = 2 := by
  refine ⟨?_, by decide, by decide⟩
  intro ids
  obtain ⟨hn, hc, hm⟩ := pool_run_invariant ids ⟨[], 0⟩ List.nodup_nil rfl
  show (ids.foldl get_connection ⟨[], 0⟩).connect_call_count = ids.dedup.length
  rw [hc]
  have hfin : (ids.foldl get_connection ⟨[], 0⟩).keys.toFinset = ids.dedup.toFinset := by
    ext k
    simp only [List.mem_toFinset, List.mem_dedup]
    simpa using hm k
  calc (ids.foldl get_connection ⟨[], 0⟩).keys.length
      = (ids.foldl get_connection ⟨[], 0⟩).keys.toFinset.card :=
        (List.toFinset_card_of_nodup hn).symm
    _ = ids.dedup.toFinset.card := by rw [hfin]
    _ = ids.dedup.length := List.toFinset_card_of_nodup (List.nodup_dedup ids)

/-- C8: when a metric table entry carries an unrecognized submission-method
name, _submit_metrics raises an exception at the offending metric: every
earlier metric in the list (declared with a recognized type) has already
been submitted when the exception propagates, the offending metric is not
emitted, and nothing after it is submitted. -/
theorem C8_invalid_type : ∀ (table : List (String × String × String))
    (pre : List WMIMetric) (m : WMIMetric) (post : List WMIMetric) (mn mt : String),
    (∀ x ∈ pre, ∃ nt, table.lookup x.name = some nt ∧ nt.2 ∈ agent_check_methods) →
    table.lookup m.name = some (mn, mt) →
    mt ∉ agent_check_methods →
    submit_metrics table (pre ++ m :: post) =
      (pre.filterMap (emit_of table), some (SubmitError.invalidMetricType mt)) := by
  intro table pre m post mn mt h hm hmt
  rw [submit_metrics_append table pre (m :: post) h]
  simp [submit_metrics, hm, if_neg hmt]

/-- C8 (witness): a gauge metric followed by one declared with the unknown
type bogus and another valid one: the first is submitted, the second raises
the invalid-metric-type exception, the third is not submitted. -/
theorem C8_witness :
    submit_metrics [("a", "m.a", "gauge"), ("b", "m.b", "bogus")]
        [⟨"a", 2, []⟩, ⟨"b", 3, []⟩, ⟨"a", 4, []⟩]
      = ([⟨"gauge", "m.a", 2, []⟩], some (SubmitError.invalidMetricType "bogus")) := by
  have hpre : ∀ x ∈ ([⟨"a", 2, []⟩] : List WMIMetric),
      ∃ nt, (([("a", "m.a", "gauge"), ("b", "m.b", "bogus")]
          : List (String × String × String)).lookup x.name) = some nt ∧
        nt.2 ∈ agent_check_methods := by
    intro x hx
    rw [List.mem_singleton] at hx
    subst hx
    exact ⟨("m.a", "gauge"), by decide, by decide⟩
  have h := C8_invalid_type [("a", "m.a", "gauge"), ("b", "m.b", "bogus")]
    [⟨"a", 2, []⟩] ⟨"b", 3, []⟩ [⟨"a", 4, []⟩] "m.b" "bogus" hpre (by decide) (by decide)
  exact h.trans (by decide)

/-- C9: a successful extraction returns exactly the coercible non-tag
candidates of every row, so a non-coercible value drops only its own
candidate while extraction continues; and whenever the MissingTagBy guard
does not fire and every tag value is a string, extraction succeeds no
matter which values are coercible, so a non-coercible value never makes
_extract_metrics fail. -/
theorem C9_coercion : ∀ (rows : List Row) (tagBy : String),
    (∀ ms, extract_metrics rows tagBy = .ok ms → ms = rows.flatMap (row_candidates tagBy)) ∧
    (¬ (1 < rows.length ∧ tagBy = "") → (∀ r ∈ rows, row_clean tagBy r) →
      extract_metrics rows tagBy = .ok (rows.flatMap (row_candidates tagBy))) := by
  intro rows tagBy
  exact ⟨fun ms h => extract_metrics_ok_eq rows tagBy ms h,
         fun h1 h2 => extract_metrics_ok_of rows tagBy h1 h2⟩

/-- C9 (witness): a row with a non-coercible decorative string value: its
candidate is dropped with the extraction succeeding and returning the
remaining coercible candidate, tagged. -/
theorem C9_witness :
    extract_metrics
        [[("name", Value.str "C:"), ("decor", Value.str "hello"), ("freemegabytes", Value.num 19742)]]
        "name"
      = .ok [⟨"freemegabytes", 19742, ["name:c:"]⟩] := by
  have h := (C9_coercion
      [[("name", Value.str "C:"), ("decor", Value.str "hello"), ("freemegabytes", Value.num 19742)]]
      "name").2 (by decide) (by decide)
  exact h.trans (by decide)

/-- C10: extraction is deterministic in the sampler state: two calls of
_extract_metrics on the same unmodified rows and tag selector return lists
of equal length whose entries agree componentwise in name, value and tags. -/
theorem C10_idempotent : ∀ (rows : List Row) (tagBy : String) (ms1 ms2 : List WMIMetric),
    extract_metrics rows tagBy = .ok ms1 → extract_metrics rows tagBy = .ok ms2 →
    ms1.length = ms2.length ∧
    ∀ (i : Nat) (h1 : i < ms1.length) (h2 : i < ms2.length),
      (ms1.get ⟨i, h1⟩).name = (ms2.get ⟨i, h2⟩).name ∧
      (ms1.get ⟨i, h1⟩).value = (ms2.get ⟨i, h2⟩).value ∧
      (ms1.get ⟨i, h1⟩).tags = (ms2.get ⟨i, h2⟩).tags := by
  intro rows tagBy ms1 ms2 h1 h2
  rw [h1] at h2
  have heq : ms1 = ms2 := Except.ok.inj h2
  subst heq
  exact ⟨rfl, fun i hi1 hi2 => ⟨rfl, rfl, rfl⟩⟩

/-- C10 (witness): both calls on a concrete one-row state return the same
single metric. -/
theorem C10_witness :
    extract_metrics [[("a", Value.num 3)]] "" = .ok [⟨"a", 3, []⟩] ∧
    ([⟨"a", (3 : Rat), []⟩] : List WMIMetric).length = ([⟨"a", (3 : Rat), []⟩] : List WMIMetric).length :=
  ⟨by decide,
   (C10_idempotent [[("a", Value.num 3)]] "" [⟨"a", 3, []⟩] [⟨"a", 3, []⟩]
     (by decide) (by decide)).1⟩

end DDWmi
